import Mathlib

/-!
Verification development for the PetzXmasLights firmware (src/src/main.cpp).

The firmware drives a WS2812B strip of NUMBER_OF_LIGHTS pixels via FastLED,
rotates through six effect functions in loop(), and exposes five run
parameters over BLE that are persisted to flash on disconnect.

This file shallowly embeds the claim-relevant parts of main.cpp: the pixel
buffer (instrumented with the list of performed writes), the effect
functions comet, twinkleStar, train, candyCane, redWhiteBlue and
randomGreenAndRed, the configuration load and store paths
(configureBLEService, updateConfiguration), the effect scheduler embedded
in loop(), and the loop() body itself.  Machine integers are modelled as
Nat or Int; the unsigned 32-bit view used by C comparisons between the
BLE characteristics (uint32) and the stored configuration fields (int)
is made explicit through toU32.
-/

/-- A FastLED CRGB pixel: three 8-bit channels (values kept as Nat). -/
structure CRGB where
  r : Nat
  g : Nat
  b : Nat
deriving DecidableEq

/-- The pixel buffer, instrumented: buf is the current contents, written
records every performed write as an (index, color) pair, most recent first. -/
structure Strip where
  buf : Nat → CRGB
  written : List (Nat × CRGB)

/-- One array store leds[i] = c. -/
def setPixel (s : Strip) (i : Nat) (c : CRGB) : Strip :=
  ⟨fun j => if j = i then c else s.buf j, (i, c) :: s.written⟩

/-- Colors named in main.cpp (lines 62-66): white, black, blue = DarkBlue,
red = DarkRed, green = DarkGreen. -/
def white : CRGB := ⟨255, 255, 255⟩

def black : CRGB := ⟨0, 0, 0⟩

def blue : CRGB := ⟨0, 0, 139⟩

def red : CRGB := ⟨139, 0, 0⟩

def green : CRGB := ⟨0, 100, 0⟩

/-- setHue(HUE_RED) turns a pixel into saturated full-value red. -/
def hueRed : CRGB := ⟨255, 0, 0⟩

/-- FastLED fadeToBlackBy: each channel is scaled by (256 - amt) / 256
(scale8 with the fixed-point correction, as nscale8(255 - amt) computes). -/
def fadeToBlackBy (c : CRGB) (amt : Nat) : CRGB :=
  ⟨c.r * (256 - amt) / 256, c.g * (256 - amt) / 256, c.b * (256 - amt) / 256⟩

/-- Compile-time defaults of main.cpp lines 27-33. -/
def NUMBER_OF_LIGHTS : Nat := 150

def CANDY_STRIP_WIDTH : Nat := 5

def TRAIN_CAR_LENGTH : Nat := 5

def SECONDS_BETWEEN_EFFECTS : Nat := 5

/-- FastLED.clear(): writes black to the whole allocated CRGBArray, whose
capacity is the compile-time constant NUMBER_OF_LIGHTS. -/
def fastledClear (s : Strip) : Strip :=
  (List.range NUMBER_OF_LIGHTS).foldl (fun s i => setPixel s i black) s

/-- The strip at power-on: all pixels dark, no writes recorded yet. -/
def initStrip : Strip := ⟨fun _ => black, []⟩

/-- CONFIG_FILE_VERSION (main.cpp line 72). -/
def CONFIG_FILE_VERSION : Int := 2

/-- configData_t (main.cpp lines 73-80): the flash record; all integer
fields are C int, the run flag is bool. -/
structure ConfigData where
  version : Int
  run : Bool
  nbrOfLeds : Int
  candyStripWidth : Int
  trainCarLength : Int
  secondsBetweenEffects : Int
deriving DecidableEq

/-- The live values of the five BLE characteristics: a BLEBool and four
BLEUnsignedInt (uint32) characteristics (main.cpp lines 52-56). -/
structure BLEValues where
  run : Bool
  nbrOfLeds : Nat
  candyStripWidth : Nat
  trainCarLength : Nat
  secondsBetweenEffects : Nat
deriving DecidableEq

/-- The value of a C int viewed as uint32, as the C comparisons between a
characteristic value and a configData_t field convert it. -/
def toU32 (x : Int) : Nat := (x % (2 ^ 32 : Int)).toNat

/-- The record updateConfiguration assembles before writing: the current
format version together with the five live characteristic values
(main.cpp lines 100-105). -/
def liveRecord (attrs : BLEValues) : ConfigData :=
  ⟨CONFIG_FILE_VERSION, attrs.run, (attrs.nbrOfLeds : Int),
   (attrs.candyStripWidth : Int), (attrs.trainCarLength : Int),
   (attrs.secondsBetweenEffects : Int)⟩

/-- The change test of updateConfiguration (main.cpp lines 94-98): any of
the five characteristics differs from the stored copy, each integer field
compared through its uint32 view. -/
def configDiffers (attrs : BLEValues) (cfg : ConfigData) : Bool :=
  (attrs.run != cfg.run) ||
  (attrs.nbrOfLeds != toU32 cfg.nbrOfLeds) ||
  (attrs.candyStripWidth != toU32 cfg.candyStripWidth) ||
  (attrs.trainCarLength != toU32 cfg.trainCarLength) ||
  (attrs.secondsBetweenEffects != toU32 cfg.secondsBetweenEffects)

/-- updateConfiguration (main.cpp lines 89-109), the BLE disconnect
handler: if any characteristic differs from g_configData, rebuild
g_configData from the live values plus CONFIG_FILE_VERSION and write it to
flash once; otherwise write nothing.  Returns the new g_configData and the
list of flash writes performed. -/
def updateConfiguration (attrs : BLEValues) (cfg : ConfigData) :
    ConfigData × List ConfigData :=
  if configDiffers attrs cfg then
    (liveRecord attrs, [liveRecord attrs])
  else
    (cfg, [])

/-- configureBLEService, load part (main.cpp lines 116-133): read the
flash record; if its version differs from CONFIG_FILE_VERSION replace
every field by the compiled-in defaults; then seed the five
characteristics from the resulting record.  Returns the resulting
g_configData and the seeded characteristic values. -/
def configureBLEService (stored : ConfigData) : ConfigData × BLEValues :=
  let cfg :=
    if stored.version ≠ CONFIG_FILE_VERSION then
      ⟨CONFIG_FILE_VERSION, true, (NUMBER_OF_LIGHTS : Int),
       (CANDY_STRIP_WIDTH : Int), (TRAIN_CAR_LENGTH : Int),
       (SECONDS_BETWEEN_EFFECTS : Int)⟩
    else stored
  (cfg, ⟨cfg.run, toU32 cfg.nbrOfLeds, toU32 cfg.candyStripWidth,
         toU32 cfg.trainCarLength, toU32 cfg.secondsBetweenEffects⟩)

/-- Claim C7: on BLE disconnect, if any of the five live characteristic
values differs from the stored configuration (under the comparisons the
code performs), exactly one flash write occurs and the written record is
the five live values tagged with the current format version; if none
differs, no flash write occurs. -/
theorem updateConfiguration_write_once (attrs : BLEValues) (cfg : ConfigData) :
    ((attrs.run ≠ cfg.run ∨ attrs.nbrOfLeds ≠ toU32 cfg.nbrOfLeds ∨
      attrs.candyStripWidth ≠ toU32 cfg.candyStripWidth ∨
      attrs.trainCarLength ≠ toU32 cfg.trainCarLength ∨
      attrs.secondsBetweenEffects ≠ toU32 cfg.secondsBetweenEffects) →
      (updateConfiguration attrs cfg).2 = [liveRecord attrs] ∧
      (liveRecord attrs).version = CONFIG_FILE_VERSION) ∧
    ((attrs.run = cfg.run ∧ attrs.nbrOfLeds = toU32 cfg.nbrOfLeds ∧
      attrs.candyStripWidth = toU32 cfg.candyStripWidth ∧
      attrs.trainCarLength = toU32 cfg.trainCarLength ∧
      attrs.secondsBetweenEffects = toU32 cfg.secondsBetweenEffects) →
      (updateConfiguration attrs cfg).2 = []) := by
  constructor
  · intro h
    have hd : configDiffers attrs cfg = true := by
      simp only [configDiffers, Bool.or_eq_true, bne_iff_ne]
      tauto
    simp [updateConfiguration, hd, liveRecord]
  · rintro ⟨h1, h2, h3, h4, h5⟩
    have hd : configDiffers attrs cfg = false := by
      simp [configDiffers, h1, h2, h3, h4, h5]
    simp [updateConfiguration, hd]

/-- Witness for C7: a concrete disconnect where only the run flag changed
produces exactly the one expected flash write. -/
theorem updateConfiguration_write_once_witness :
    (updateConfiguration ⟨false, 150, 5, 5, 5⟩ ⟨2, true, 150, 5, 5, 5⟩).2 =
      [liveRecord ⟨false, 150, 5, 5, 5⟩] ∧
    (liveRecord ⟨false, 150, 5, 5, 5⟩).version = CONFIG_FILE_VERSION :=
  (updateConfiguration_write_once ⟨false, 150, 5, 5, 5⟩ ⟨2, true, 150, 5, 5, 5⟩).1
    (by decide)

/-- Claim C8: loading a stored record whose version tag is not
CONFIG_FILE_VERSION yields the compiled-in default configuration
(run = true, 150 pixels, stripe width 5, train length 5, 5 seconds between
effects) with none of the stored fields used, while a matching version tag
yields the stored record unchanged. -/
theorem configureBLEService_version_guard (stored : ConfigData) :
    (stored.version ≠ CONFIG_FILE_VERSION →
      (configureBLEService stored).1 = ⟨2, true, 150, 5, 5, 5⟩) ∧
    (stored.version = CONFIG_FILE_VERSION →
      (configureBLEService stored).1 = stored) := by
  constructor
  · intro h
    have h1 : (configureBLEService stored).1 =
        ⟨CONFIG_FILE_VERSION, true, (NUMBER_OF_LIGHTS : Int),
         (CANDY_STRIP_WIDTH : Int), (TRAIN_CAR_LENGTH : Int),
         (SECONDS_BETWEEN_EFFECTS : Int)⟩ := by
      simp only [configureBLEService]
      rw [if_pos h]
    rw [h1]
    decide
  · intro h
    simp only [configureBLEService]
    rw [if_neg (fun hn => hn h)]

/-- Witness for C8: a version-1 record full of junk values loads as the
compiled-in defaults. -/
theorem configureBLEService_version_guard_witness :
    (configureBLEService ⟨1, false, 999, 9, 9, 9⟩).1 = ⟨2, true, 150, 5, 5, 5⟩ :=
  (configureBLEService_version_guard ⟨1, false, 999, 9, 9, 9⟩).1 (by decide)

/-- State of the comet effect (main.cpp lines 153-154): function-local
static int iDirection = 1 and static int iPos = 0. -/
structure CometState where
  iPos : Int
  iDirection : Int
deriving DecidableEq

/-- comet (main.cpp lines 150-169).  Steps the position by the direction,
reverses the direction when the post-step position equals
nbrOfLEDS - cometSize or 0 (the C comparison promotes through unsigned
arithmetic, which for nbrOfLEDS at least 10 agrees with this Int
subtraction), then runs the draw loop - whose body writes
leds[iPos + 1], never using the loop variable - and finally fades every
pixel below nbrOfLEDS by fadeAmt. -/
def comet (nbrOfLEDS : Nat) (st : CometState) (s : Strip) : CometState × Strip :=
  let cometSize : Nat := 10
  let fadeAmt : Nat := 64
  let iPos := st.iPos + st.iDirection
  let iDirection :=
    if iPos = (nbrOfLEDS : Int) - (cometSize : Int) ∨ iPos = 0 then
      -st.iDirection
    else st.iDirection
  let s := (List.range cometSize).foldl
    (fun s _ => setPixel s (iPos + 1).toNat hueRed) s
  let s := (List.range nbrOfLEDS).foldl
    (fun s j => setPixel s j (fadeToBlackBy (s.buf j) fadeAmt)) s
  (⟨iPos, iDirection⟩, s)

/-- The twinkle palette (main.cpp lines 176-183): Red, Blue, Purple,
Green, Orange. -/
def twinkleColors : List CRGB :=
  [⟨255, 0, 0⟩, ⟨0, 0, 255⟩, ⟨128, 0, 128⟩, ⟨0, 128, 0⟩, ⟨255, 165, 0⟩]

/-- twinkleStar (main.cpp lines 172-197).  rPix and rCol are the two
random draws of the activation; passCount is the static pass counter. -/
def twinkleStar (nbrOfLEDS rPix rCol passCount : Nat) (s : Strip) :
    Nat × Strip :=
  let pc := passCount + 1
  let cleared : Nat × Strip :=
    if pc = nbrOfLEDS / 4 then (0, fastledClear s) else (pc, s)
  (cleared.1, setPixel cleared.2 rPix (twinkleColors.getD rCol black))

/-- train (main.cpp lines 200-216).  Clears the strip, draws a red car
and a green car of trainLength pixels at offset and offset + trainLength,
skipping any pixel whose index would reach nbrLEDS, then advances the
static offset modulo nbrLEDS.  Returns the new offset and the strip. -/
def train (trainLength nbrLEDS offset : Nat) (s : Strip) : Nat × Strip :=
  let s := fastledClear s
  let s := (List.range trainLength).foldl
    (fun s j =>
      let s := if j + offset < nbrLEDS then setPixel s (j + offset) red else s
      if j + trainLength + offset < nbrLEDS then
        setPixel s (j + trainLength + offset) green
      else s) s
  ((offset + 1) % nbrLEDS, s)

/-- candyCane (main.cpp lines 219-239).  Fills the strip white, then for
each of nbrLEDS / stripWidth stripe slots draws stripWidth red pixels
starting two stripe widths apart, every index shifted by the static
offset and wrapped modulo nbrLEDS; finally advances the offset. -/
def candyCane (stripWidth nbrLEDS offset : Nat) (s : Strip) : Nat × Strip :=
  let s := (List.range nbrLEDS).foldl (fun s i => setPixel s i white) s
  let s := (List.range (nbrLEDS / stripWidth)).foldl
    (fun s i =>
      (List.range' (i * stripWidth * 2) stripWidth).foldl
        (fun s j => setPixel s ((j + offset) % nbrLEDS) red) s) s
  ((offset + 1) % nbrLEDS, s)

/-- redWhiteBlue (main.cpp lines 242-264): three-band rotating pattern,
band chosen by (i % (3 * stripWidth)) / stripWidth. -/
def redWhiteBlue (stripWidth nbrLEDS offset : Nat) (s : Strip) : Nat × Strip :=
  let s := fastledClear s
  let s := (List.range nbrLEDS).foldl
    (fun s i =>
      match (i % (3 * stripWidth)) / stripWidth with
      | 0 => setPixel s ((i + offset) % nbrLEDS) blue
      | 1 => setPixel s ((i + offset) % nbrLEDS) white
      | 2 => setPixel s ((i + offset) % nbrLEDS) red
      | _ => s) s
  ((offset + 1) % nbrLEDS, s)

/-- The per-pixel color choice of randomGreenAndRed (main.cpp line 270):
random(10) yields a draw r uniform on 0..9, and the pixel becomes red
when r is greater than 5, green otherwise. -/
def greenRedDraw (r : Nat) : CRGB := if 5 < r then red else green

/-- randomGreenAndRed (main.cpp lines 267-274); rand i is the draw used
for pixel i. -/
def randomGreenAndRed (nbrLEDS : Nat) (rand : Nat → Nat) (s : Strip) : Strip :=
  (List.range nbrLEDS).foldl (fun s i => setPixel s i (greenRedDraw (rand i))) s

/-- Reading the buffer after one store. -/
theorem setPixel_buf (s : Strip) (i : Nat) (c : CRGB) (p : Nat) :
    (setPixel s i c).buf p = if p = i then c else s.buf p := rfl

/-- Reading the buffer after a loop that stores a per-index color at every
index of a list. -/
theorem buf_foldl_store (f : Nat → CRGB) :
    ∀ (l : List Nat) (s : Strip) (p : Nat),
      ((l.foldl (fun s i => setPixel s i (f i)) s).buf p) =
        if p ∈ l then f p else s.buf p := by
  intro l
  induction l with
  | nil => intro s p; simp
  | cons x xs ih =>
    intro s p
    simp only [List.foldl_cons, List.mem_cons]
    rw [ih]
    by_cases hx : p ∈ xs
    · simp [hx]
    · by_cases hpx : p = x
      · subst hpx
        simp [hx, setPixel]
      · simp [hx, hpx, setPixel]

/-- Every write recorded by a loop satisfies an invariant that each loop
body step preserves. -/
theorem written_foldl_pres {α : Type} (P : Nat × CRGB → Prop)
    (step : Strip → α → Strip)
    (hstep : ∀ s a, (∀ q ∈ s.written, P q) → ∀ q ∈ (step s a).written, P q) :
    ∀ (l : List α) (s : Strip), (∀ q ∈ s.written, P q) →
      ∀ q ∈ (l.foldl step s).written, P q := by
  intro l
  induction l with
  | nil => intro s h; exact h
  | cons x xs ih => intro s h; exact ih _ (hstep s x h)

/-- Claim C3: for any pixel count of at least cometSize + 1 = 11, a comet
activation reverses the direction exactly when the post-step position is
0 or nbrOfLEDS - 10, leaves it unchanged whenever the post-step position
lies strictly between those boundaries, and the post-step position is the
old position plus the old direction. -/
theorem comet_direction (n : Nat) (st : CometState) (s : Strip)
    (hn : 11 ≤ n) :
    ((st.iPos + st.iDirection = 0 ∨ st.iPos + st.iDirection = (n : Int) - 10) →
      (comet n st s).1.iDirection = -st.iDirection) ∧
    ((0 < st.iPos + st.iDirection ∧ st.iPos + st.iDirection < (n : Int) - 10) →
      (comet n st s).1.iDirection = st.iDirection) ∧
    ((comet n st s).1.iDirection ≠ st.iDirection →
      st.iPos + st.iDirection = 0 ∨ st.iPos + st.iDirection = (n : Int) - 10) ∧
    (comet n st s).1.iPos = st.iPos + st.iDirection := by
  have hfst : (comet n st s).1 =
      ⟨st.iPos + st.iDirection,
       if st.iPos + st.iDirection = (n : Int) - 10 ∨
          st.iPos + st.iDirection = 0 then -st.iDirection
       else st.iDirection⟩ := by
    simp [comet]
  rw [hfst]
  refine ⟨fun h => ?_, fun h => ?_, fun h => ?_, rfl⟩
  · exact if_pos (Or.symm h)
  · exact if_neg (by rintro (hc | hc) <;> omega)
  · by_contra hb
    push_neg at hb
    exact h (if_neg (by rintro (hc | hc) <;> [exact hb.2 hc; exact hb.1 hc]))

/-- Witness for C3: with 20 pixels, stepping from position 4 with
direction 1 lands on 5, strictly inside the boundaries, and the direction
stays 1. -/
theorem comet_direction_witness :
    (comet 20 ⟨4, 1⟩ initStrip).1.iDirection = 1 ∧
    (comet 20 ⟨4, 1⟩ initStrip).1.iPos = 5 :=
  ⟨(comet_direction 20 ⟨4, 1⟩ initStrip (by decide)).2.1 (by constructor <;> decide),
   (comet_direction 20 ⟨4, 1⟩ initStrip (by decide)).2.2.2⟩

/-- Claim C4 (code bug): the comet draw loop was meant to light the
cometSize pixels starting at the position, but its body indexes
leds[iPos + 1] instead of leds[iPos + i].  Concretely, stepping from
position 1 with direction 1 (post-step position 2) on an all-black strip
of 150 pixels leaves pixels 2 and 4 black: only pixel 3 carries the faded
red hue, so no cometSize-long run starting at the position is set. -/
theorem comet_draw_bug :
    (comet 150 ⟨1, 1⟩ initStrip).2.buf 3 = fadeToBlackBy hueRed 64 ∧
    (comet 150 ⟨1, 1⟩ initStrip).2.buf 2 = black ∧
    (comet 150 ⟨1, 1⟩ initStrip).2.buf 4 = black ∧
    black ≠ fadeToBlackBy hueRed 64 := by
  refine ⟨by decide, by decide, by decide, by decide⟩

/-- Claim C1 (code bug): the loop passes the BLE pixel-count
characteristic to the effects unclamped, so a remote write of 151 makes
train index the CRGBArray at 150, which is at the allocated capacity
NUMBER_OF_LIGHTS = 150 (the fixed-length array flagged by the TODO at
main.cpp line 58).  With offset 145 the green car writes pixel 150. -/
theorem pixelCount_not_clamped :
    (150, green) ∈ (train TRAIN_CAR_LENGTH 151 145 initStrip).2.written ∧
    ¬(150 < NUMBER_OF_LIGHTS) := by
  refine ⟨by decide, by decide⟩

/-- Claim C9 counterexample: of the ten equally likely draw outcomes
0..9 used for one pixel, the number that select red is not five, so the
split is not 50/50. -/
theorem greenRedDraw_not_half :
    ((Finset.range 10).filter (fun r => greenRedDraw r = red)).card ≠ 5 := by
  decide

/-- Reading the buffer after the randomGreenAndRed store loop. -/
theorem randomGreenAndRed_buf (rand : Nat → Nat) :
    ∀ (l : List Nat) (s : Strip) (p : Nat),
      ((l.foldl (fun s i => setPixel s i (greenRedDraw (rand i))) s).buf p) =
        if p ∈ l then greenRedDraw (rand p) else s.buf p := by
  intro l
  induction l with
  | nil => intro s p; simp
  | cons x xs ih =>
    intro s p
    simp only [List.foldl_cons, List.mem_cons]
    rw [ih]
    by_cases hx : p ∈ xs
    · simp [hx]
    · by_cases hpx : p = x
      · subst hpx
        simp [hx, setPixel]
      · simp [hx, hpx, setPixel]

/-- Claim C9 amended: each activation of randomGreenAndRed colors every
pixel i below the pixel count by the draw rand i alone - red when the
draw exceeds 5, green otherwise - so of the ten equally likely outcomes,
four select red and six select green (a 40/60 split, not 50/50). -/
theorem randomGreenAndRed_ratio (nbrLEDS : Nat) (rand : Nat → Nat)
    (s : Strip) (i : Nat) (hi : i < nbrLEDS) :
    (randomGreenAndRed nbrLEDS rand s).buf i = greenRedDraw (rand i) ∧
    ((Finset.range 10).filter (fun r => greenRedDraw r = red)).card = 4 ∧
    ((Finset.range 10).filter (fun r => greenRedDraw r = green)).card = 6 := by
  refine ⟨?_, by decide, by decide⟩
  simp only [randomGreenAndRed]
  rw [randomGreenAndRed_buf]
  rw [if_pos (List.mem_range.mpr hi)]

/-- Witness for the amended C9: pixel 1 of a 3-pixel strip whose draw is
always 7 comes out as the red branch of the draw function. -/
theorem randomGreenAndRed_ratio_witness :
    (randomGreenAndRed 3 (fun _ => 7) initStrip).buf 1 = greenRedDraw 7 ∧
    ((Finset.range 10).filter (fun r => greenRedDraw r = red)).card = 4 ∧
    ((Finset.range 10).filter (fun r => greenRedDraw r = green)).card = 6 :=
  randomGreenAndRed_ratio 3 (fun _ => 7) initStrip 1 (by decide)

/-- Every write recorded by fastledClear on a fresh strip is black. -/
theorem fastledClear_written (b : Nat → CRGB) :
    ∀ q ∈ (fastledClear ⟨b, []⟩).written, q.2 = black := by
  have h := written_foldl_pres (fun q => q.2 = black)
    (fun s i => setPixel s i black)
    (fun s i hs q hq => by
      simp only [setPixel, List.mem_cons] at hq
      rcases hq with rfl | hq
      · rfl
      · exact hs q hq)
    (List.range NUMBER_OF_LIGHTS) ⟨b, []⟩
    (fun q hq => absurd hq (List.not_mem_nil q))
  exact h

/-- Claim C2: an activation of train on a fresh strip records colored
(red or green) car writes only at indices strictly below the pixel count
- car segments that would land at or past the end are skipped - and the
returned offset is the old offset plus one, modulo the pixel count. -/
theorem train_clipping (trainLength nbrLEDS offset : Nat) (b : Nat → CRGB)
    (ho : offset < nbrLEDS) (q : Nat × CRGB)
    (hq : q ∈ (train trainLength nbrLEDS offset ⟨b, []⟩).2.written) :
    ((q.2 = red ∨ q.2 = green) → q.1 < nbrLEDS) ∧
    (train trainLength nbrLEDS offset ⟨b, []⟩).1 = (offset + 1) % nbrLEDS := by
  refine ⟨?_, rfl⟩
  simp only [train] at hq
  refine written_foldl_pres (fun q => (q.2 = red ∨ q.2 = green) → q.1 < nbrLEDS)
    _ ?_ (List.range trainLength) (fastledClear ⟨b, []⟩) ?_ q hq
  · intro s j hs p hp
    by_cases h1 : j + offset < nbrLEDS <;>
      by_cases h2 : j + trainLength + offset < nbrLEDS <;>
        simp only [if_pos, if_neg, h1, h2, if_true, if_false, ite_true,
          ite_false, setPixel, List.mem_cons] at hp
    · rcases hp with rfl | rfl | hp
      · intro _; exact h2
      · intro _; exact h1
      · exact hs p hp
    · rcases hp with rfl | hp
      · intro _; exact h1
      · exact hs p hp
    · rcases hp with rfl | hp
      · intro _; exact h2
      · exact hs p hp
    · exact hs p hp
  · intro p hp
    intro hc
    have hb := fastledClear_written b p hp
    rcases hc with hc | hc <;> rw [hb] at hc <;> exact absurd hc (by decide)

/-- Witness for C2: a two-pixel train on five pixels at offset zero
records the write of pixel 0 in red, and that write is in bounds while
the offset advances to 1. -/
theorem train_clipping_witness :
    (((0, red) : Nat × CRGB).2 = red ∨ ((0, red) : Nat × CRGB).2 = green → ((0, red) : Nat × CRGB).1 < 5) ∧
    (train 2 5 0 ⟨fun _ => black, []⟩).1 = (0 + 1) % 5 :=
  train_clipping 2 5 0 (fun _ => black) (by decide) (0, red) (by decide)

open Classical in
/-- Reading the buffer after one candy-cane stripe: the loop writes red
at (j + o) % n for every j in the stripe interval. -/
theorem candy_stripe_buf (n o : Nat) :
    ∀ (len a : Nat) (s : Strip) (p : Nat),
      (((List.range' a len).foldl
          (fun s j => setPixel s ((j + o) % n) red) s).buf p) =
        if ∃ j, (a ≤ j ∧ j < a + len) ∧ (j + o) % n = p then red
        else s.buf p := by
  intro len
  induction len with
  | zero =>
    intro a s p
    rw [if_neg (by rintro ⟨j, ⟨h1, h2⟩, _⟩; omega)]
    rfl
  | succ m ih =>
    intro a s p
    rw [List.range'_succ, List.foldl_cons, ih]
    by_cases htail : ∃ j, (a + 1 ≤ j ∧ j < a + 1 + m) ∧ (j + o) % n = p
    · rw [if_pos htail]
      obtain ⟨j, ⟨h1, h2⟩, h3⟩ := htail
      rw [if_pos ⟨j, ⟨by omega, by omega⟩, h3⟩]
    · rw [if_neg htail, setPixel_buf]
      by_cases hhead : p = (a + o) % n
      · rw [if_pos hhead, if_pos ⟨a, ⟨le_refl a, by omega⟩, hhead.symm⟩]
      · rw [if_neg hhead, if_neg ?_]
        rintro ⟨j, ⟨h1, h2⟩, h3⟩
        rcases Nat.eq_or_lt_of_le h1 with rfl | hj
        · exact hhead h3.symm
        · exact htail ⟨j, ⟨by omega, by omega⟩, h3⟩

open Classical in
/-- Reading the buffer after the full candy-cane stripe loop over a list
of stripe slots. -/
theorem candy_stripes_buf (w n o : Nat) :
    ∀ (li : List Nat) (s : Strip) (p : Nat),
      ((li.foldl
          (fun s i =>
            (List.range' (i * w * 2) w).foldl
              (fun s j => setPixel s ((j + o) % n) red) s) s).buf p) =
        if ∃ i ∈ li, ∃ j, (i * w * 2 ≤ j ∧ j < i * w * 2 + w) ∧
            (j + o) % n = p then red
        else s.buf p := by
  intro li
  induction li with
  | nil =>
    intro s p
    rw [if_neg (by rintro ⟨i, hi, _⟩; exact absurd hi (List.not_mem_nil i))]
    rfl
  | cons x xs ih =>
    intro s p
    rw [List.foldl_cons, ih, candy_stripe_buf]
    by_cases htail : ∃ i ∈ xs, ∃ j, (i * w * 2 ≤ j ∧ j < i * w * 2 + w) ∧
        (j + o) % n = p
    · rw [if_pos htail]
      obtain ⟨i, hi, hj⟩ := htail
      rw [if_pos ⟨i, List.mem_cons_of_mem x hi, hj⟩]
    · rw [if_neg htail]
      by_cases hhead : ∃ j, (x * w * 2 ≤ j ∧ j < x * w * 2 + w) ∧
          (j + o) % n = p
      · rw [if_pos hhead]
        obtain ⟨j, hj⟩ := hhead
        rw [if_pos ⟨x, List.mem_cons_self x xs, j, hj⟩]
      · rw [if_neg hhead, if_neg ?_]
        rintro ⟨i, hi, hj⟩
        rcases List.mem_cons.mp hi with rfl | hi
        · exact hhead hj
        · exact htail ⟨i, hi, hj⟩

/-- Claim C5: with 150 pixels and stripe width 5, a candy-cane activation
at offset o below 150 makes pixel p red exactly when (p + 150 - o) % 10
is below 5 and white otherwise - that is, the strip is partitioned into
15 red runs of 5 pixels alternating with 15 white runs of 5 pixels,
the whole pattern shifted by o - and the offset advances to
(o + 1) % 150. -/
theorem candyCane_pattern (o p : Nat) (s : Strip) (ho : o < 150)
    (hp : p < 150) :
    (candyCane 5 150 o s).2.buf p =
      (if (p + 150 - o) % 10 < 5 then red else white) ∧
    (candyCane 5 150 o s).1 = (o + 1) % 150 := by
  refine ⟨?_, rfl⟩
  have hiff : (∃ i ∈ List.range (150 / 5), ∃ j,
      (i * 5 * 2 ≤ j ∧ j < i * 5 * 2 + 5) ∧ (j + o) % 150 = p) ↔
      (p + 150 - o) % 10 < 5 := by
    constructor
    · rintro ⟨i, hi, j, ⟨hj1, hj2⟩, hjp⟩
      rw [List.mem_range] at hi
      omega
    · intro h
      refine ⟨(p + 150 - o) % 150 / 10, List.mem_range.mpr (by omega),
        (p + 150 - o) % 150, ⟨by omega, by omega⟩, by omega⟩
  simp only [candyCane]
  rw [candy_stripes_buf, buf_foldl_store (fun _ => white)]
  by_cases h : (p + 150 - o) % 10 < 5
  · rw [if_pos (hiff.mpr h), if_pos h]
  · rw [if_neg (fun hc => h (hiff.mp hc)), if_neg h,
      if_pos (List.mem_range.mpr hp)]

/-- Witness for C5: at offset 7, pixel 12 satisfies the stated pattern
and the offset advances to 8 modulo 150. -/
theorem candyCane_pattern_witness :
    (candyCane 5 150 7 initStrip).2.buf 12 =
      (if (12 + 150 - 7) % 10 < 5 then red else white) ∧
    (candyCane 5 150 7 initStrip).1 = (7 + 1) % 150 :=
  candyCane_pattern 7 12 initStrip (by decide) (by decide)

/-- The effect selector of loop(): currentEffect and lastEffectStartTime
(main.cpp lines 86, 334). -/
structure SchedState where
  currentEffect : Nat
  lastEffectStartTime : Nat
deriving DecidableEq

/-- maxEffects (main.cpp line 335): the switch in loop() has exactly the
cases 0 through 5. -/
def maxEffects : Nat := 6

/-- The transition check of loop() (main.cpp lines 375-379): when at
least secs * 1000 milliseconds have elapsed since the last transition,
advance the selector by one modulo maxEffects and reset the timer.  The
unsigned wraparound subtraction millis() - lastEffectStartTime is
modelled as Nat truncated subtraction, which agrees with it whenever the
clock is at or past the recorded start time. -/
def schedulerStep (secs now : Nat) (st : SchedState) : SchedState :=
  if secs * 1000 ≤ now - st.lastEffectStartTime then
    ⟨(st.currentEffect + 1) % maxEffects, now⟩
  else st

/-- The scheduler check evaluated at each of a list of clock readings in
order, as successive loop() iterations do. -/
def runSched (secs : Nat) (ts : List Nat) (st : SchedState) : SchedState :=
  ts.foldl (fun st t => schedulerStep secs t st) st

/-- Splitting a run of scheduler checks. -/
theorem runSched_append (secs : Nat) (l1 l2 : List Nat) (st : SchedState) :
    runSched secs (l1 ++ l2) st = runSched secs l2 (runSched secs l1 st) := by
  simp [runSched, List.foldl_append]

/-- A run of scheduler checks before the threshold elapses changes
nothing. -/
theorem runSched_no_fire (secs : Nat) :
    ∀ (ts : List Nat) (st : SchedState),
      (∀ t ∈ ts, t - st.lastEffectStartTime < secs * 1000) →
      runSched secs ts st = st := by
  intro ts
  induction ts with
  | nil => intro st _; rfl
  | cons x xs ih =>
    intro st h
    have hx : schedulerStep secs x st = st := by
      unfold schedulerStep
      rw [if_neg (by have := h x (List.mem_cons_self x xs); omega)]
    calc runSched secs (x :: xs) st
        = runSched secs xs (schedulerStep secs x st) := rfl
      _ = runSched secs xs st := by rw [hx]
      _ = st := ih st (fun t ht => h t (List.mem_cons_of_mem x ht))

/-- Claim C6: polled at every millisecond after a transition at time t0,
the scheduler performs no transition while fewer than secs * 1000
milliseconds have elapsed and exactly one transition at t0 + secs * 1000,
which advances the selector from c to (c + 1) % maxEffects and resets the
timer; and advancing maxEffects times returns the selector to its
starting value, in particular effect 0 comes back after exactly
maxEffects transitions. -/
theorem scheduler_period (secs c t0 t : Nat) (st : SchedState)
    (hs : 1 ≤ secs) (hc : c < maxEffects) :
    runSched secs (List.range' (t0 + 1) (secs * 1000)) ⟨c, t0⟩ =
      ⟨(c + 1) % maxEffects, t0 + secs * 1000⟩ ∧
    (t - st.lastEffectStartTime < secs * 1000 →
      schedulerStep secs t st = st) ∧
    (fun e => (e + 1) % maxEffects)^[maxEffects] c = c := by
  refine ⟨?_, ?_, ?_⟩
  · have hsplit : secs * 1000 = (secs * 1000 - 1) + 1 := by omega
    have hx : t0 + 1 + 1 * (secs * 1000 - 1) = t0 + secs * 1000 := by omega
    have hlist : List.range' (t0 + 1) (secs * 1000) =
        List.range' (t0 + 1) (secs * 1000 - 1) ++ [t0 + secs * 1000] := by
      conv_lhs => rw [hsplit]
      rw [List.range'_concat, hx]
    have hpre : runSched secs (List.range' (t0 + 1) (secs * 1000 - 1))
        ⟨c, t0⟩ = ⟨c, t0⟩ := by
      apply runSched_no_fire
      intro u hu
      rw [List.mem_range'_1] at hu
      show u - t0 < secs * 1000
      omega
    rw [hlist, runSched_append, hpre]
    show schedulerStep secs (t0 + secs * 1000) ⟨c, t0⟩ = _
    unfold schedulerStep
    rw [if_pos (by show secs * 1000 ≤ t0 + secs * 1000 - t0; omega)]
  · intro h
    unfold schedulerStep
    rw [if_neg (by omega)]
  · have hc6 : c < 6 := hc
    interval_cases c <;> decide

/-- Witness for C6: with a one-second interval starting at time 0 and
selector 0, the first 1000 millisecond polls produce exactly the single
transition to effect 1 at time 1000, and six transitions bring effect 0
back to itself. -/
theorem scheduler_period_witness :
    runSched 1 (List.range' (0 + 1) (1 * 1000)) ⟨0, 0⟩ =
      ⟨(0 + 1) % maxEffects, 0 + 1 * 1000⟩ ∧
    (0 - (⟨0, 0⟩ : SchedState).lastEffectStartTime < 1 * 1000 →
      schedulerStep 1 0 ⟨0, 0⟩ = ⟨0, 0⟩) ∧
    (fun e => (e + 1) % maxEffects)^[maxEffects] 0 = 0 :=
  scheduler_period 1 0 0 0 ⟨0, 0⟩ (by decide) (by decide)

/-- The full mutable state touched by loop(): the effect selector, the
per-effect static locals and the pixel buffer. -/
structure LoopState where
  currentEffect : Nat
  lastEffectStartTime : Nat
  cometState : CometState
  candyOffset : Nat
  trainOffset : Nat
  rwbOffset : Nat
  twinklePass : Nat
  strip : Strip

/-- The switch of loop() (main.cpp lines 352-371): dispatch on the
selector, every effect receiving the live BLE characteristic values
(note case 3 passes the train-car length as the stripe width, as the
source does). -/
def runEffect (effectIdx : Nat) (attrs : BLEValues) (rand : Nat → Nat)
    (st : LoopState) : LoopState :=
  match effectIdx with
  | 0 =>
    let r := candyCane attrs.candyStripWidth attrs.nbrOfLeds st.candyOffset st.strip
    { st with candyOffset := r.1, strip := r.2 }
  | 1 => { st with strip := randomGreenAndRed attrs.nbrOfLeds rand st.strip }
  | 2 =>
    let r := train attrs.trainCarLength attrs.nbrOfLeds st.trainOffset st.strip
    { st with trainOffset := r.1, strip := r.2 }
  | 3 =>
    let r := redWhiteBlue attrs.trainCarLength attrs.nbrOfLeds st.rwbOffset st.strip
    { st with rwbOffset := r.1, strip := r.2 }
  | 4 =>
    let r := twinkleStar attrs.nbrOfLeds (rand 0) (rand 1) st.twinklePass st.strip
    { st with twinklePass := r.1, strip := r.2 }
  | 5 =>
    let r := comet attrs.nbrOfLeds st.cometState st.strip
    { st with cometState := r.1, strip := r.2 }
  | _ => st

/-- One iteration of loop() (main.cpp lines 339-389).  Everything that
renders - the unconditional comet call, the 500 ms effect dispatch
(tickDue models the EVERY_N_MILLISECONDS gate), the scheduler check, and
the blackout clear when the run flag is off - sits under
if (not BLE.connected()); when a central is connected the iteration
leaves the whole state untouched and only polls BLE. -/
def loop (connected runLights tickDue : Bool) (attrs : BLEValues)
    (cfgSeconds now : Nat) (rand : Nat → Nat) (st : LoopState) : LoopState :=
  if !connected then
    if runLights then
      let stepped := comet NUMBER_OF_LIGHTS st.cometState st.strip
      let st1 := { st with cometState := stepped.1, strip := stepped.2 }
      let st2 := if tickDue then runEffect st1.currentEffect attrs rand st1 else st1
      let sch := schedulerStep cfgSeconds now
        ⟨st2.currentEffect, st2.lastEffectStartTime⟩
      { st2 with currentEffect := sch.currentEffect,
                 lastEffectStartTime := sch.lastEffectStartTime }
    else { st with strip := fastledClear st.strip }
  else st

/-- Claim C10: a loop() iteration during which a BLE central is connected
invokes no effect, does not advance the selector, and does not touch the
pixel buffer - the whole loop state is returned unchanged. -/
theorem loop_suspended_while_connected (runLights tickDue : Bool)
    (attrs : BLEValues) (cfgSeconds now : Nat) (rand : Nat → Nat)
    (st : LoopState) :
    loop true runLights tickDue attrs cfgSeconds now rand st = st := rfl
